import Mathlib

/-!
Verification of the `hls_m3u8` tag codec and media-segment model.

Text is modelled as `List Char` (one Rust `&str` slice or `String`).
Machine integers (`u64`, `usize`) are modelled as `Nat`: all the operations
verified here (decimal rendering and parsing of values the library itself
produced) stay far below any overflow boundary, so the model is faithful on
the values reachable through the public constructors.
-/

namespace Hls

/-- Text, modelled as a list of characters. -/
abbrev Str := List Char

/-- Error taxonomy of the codec.  `invalidInput` models the old
`ErrorKind::InvalidInput` used by `trackable`-era code (`map.rs`);
`missingValue` models `Error::missing_value(name)` used by
`i_frame_stream_inf.rs`; the remaining kinds follow the spec's taxonomy for
the primitive decoders that are not part of `src/`. -/
inductive HlsError where
  | invalidInput
  | malformedAttributeList
  | invalidNumber
  | invalidQuotedString
  | invalidResolution
  | invalidEnumValue
  | missingValue (name : Str)
  deriving DecidableEq

deriving instance DecidableEq for Except

/-! ### Decimal numbers -/

/-- The decimal digit character for `d < 10`. -/
def digitCh (d : Nat) : Char := Char.ofNat (48 + d)

/-- Inverse of `digitCh`: `some d` when `c` is a decimal digit. -/
def charToDigit (c : Char) : Option Nat :=
  if 48 ≤ c.toNat ∧ c.toNat ≤ 57 then some (c.toNat - 48) else none

/-- `c` is a decimal digit. -/
def isDigitCh (c : Char) : Bool := (charToDigit c).isSome

/-- Fuel-based decimal rendering of the digits of `n` (most significant
first); empty for `n = 0`.  Models Rust's `{}` formatting of an unsigned
integer together with `natToChars`. -/
def natToCharsAux : Nat → Nat → Str
  | 0, _ => []
  | fuel + 1, n =>
    if n = 0 then [] else natToCharsAux fuel (n / 10) ++ [digitCh (n % 10)]

/-- Decimal rendering of `n`, as Rust's `{}` formatting of `u64`/`usize`. -/
def natToChars (n : Nat) : Str :=
  if n = 0 then ['0'] else natToCharsAux (n + 1) n

/-- Decode a decimal natural number: nonempty, decimal digits only
(spec section 4.2, and `utils::parse_u64`). -/
def parseNat (s : Str) : Option Nat :=
  if s = [] then none
  else if s.all isDigitCh then
    some (s.foldl (fun a c => a * 10 + (charToDigit c).getD 0) 0)
  else none

theorem charToDigit_digitCh {d : Nat} (h : d < 10) :
    charToDigit (digitCh d) = some d := by
  interval_cases d <;> decide

theorem isDigitCh_digitCh {d : Nat} (h : d < 10) : isDigitCh (digitCh d) = true := by
  simp [isDigitCh, charToDigit_digitCh h]

theorem natToCharsAux_digits :
    ∀ fuel n, ∀ c ∈ natToCharsAux fuel n, isDigitCh c = true := by
  intro fuel
  induction fuel with
  | zero => intro n c hc; simp [natToCharsAux] at hc
  | succ fuel ih =>
    intro n c hc
    by_cases hn : n = 0
    · simp [natToCharsAux, hn] at hc
    · simp only [natToCharsAux, if_neg hn, List.mem_append, List.mem_singleton] at hc
      rcases hc with hc | hc
      · exact ih _ c hc
      · subst hc; exact isDigitCh_digitCh (Nat.mod_lt _ (by norm_num))

theorem natToChars_digits (n : Nat) : ∀ c ∈ natToChars n, isDigitCh c = true := by
  intro c hc
  by_cases hn : n = 0
  · simp [natToChars, hn] at hc; subst hc; decide
  · simp only [natToChars, if_neg hn] at hc
    exact natToCharsAux_digits _ _ c hc

theorem natToCharsAux_ne_nil {fuel n : Nat} (hn : n ≠ 0) (hf : n ≤ fuel) :
    natToCharsAux fuel n ≠ [] := by
  cases fuel with
  | zero => omega
  | succ fuel => simp [natToCharsAux, hn]

theorem natToChars_ne_nil (n : Nat) : natToChars n ≠ [] := by
  by_cases hn : n = 0
  · simp [natToChars, hn]
  · simp only [natToChars, if_neg hn]
    exact natToCharsAux_ne_nil hn (by omega)

/-- Folding the decimal digit accumulator over the rendered digits of `n`
recovers `n`, shifted past an arbitrary accumulator. -/
theorem foldl_natToCharsAux :
    ∀ fuel n, n ≤ fuel → ∀ a,
      (natToCharsAux fuel n).foldl (fun a c => a * 10 + (charToDigit c).getD 0) a =
        a * 10 ^ (natToCharsAux fuel n).length + n := by
  intro fuel
  induction fuel with
  | zero => intro n hn a; interval_cases n; simp [natToCharsAux]
  | succ fuel ih =>
    intro n hn a
    by_cases h0 : n = 0
    · simp [natToCharsAux, h0]
    · have hdiv : n / 10 ≤ fuel := by
        have := Nat.div_lt_self (Nat.pos_of_ne_zero h0) (by norm_num : 1 < 10)
        omega
      simp only [natToCharsAux, if_neg h0, List.foldl_append, List.length_append,
        List.foldl_cons, List.foldl_nil, List.length_singleton]
      rw [ih _ hdiv a, charToDigit_digitCh (Nat.mod_lt _ (by norm_num))]
      simp only [Option.getD_some]
      have hmod := Nat.div_add_mod n 10
      ring_nf
      omega

theorem parseNat_natToChars (n : Nat) : parseNat (natToChars n) = some n := by
  by_cases hn : n = 0
  · subst hn; decide
  · have hne := natToChars_ne_nil n
    have hall : (natToChars n).all isDigitCh = true :=
      List.all_eq_true.2 (fun c hc => natToChars_digits n c hc)
    simp only [parseNat, if_neg hne, hall, if_pos rfl, Option.some.injEq]
    simp only [natToChars, if_neg hn]
    rw [foldl_natToCharsAux (n + 1) n (by omega) 0]
    simp

/-! ### The attribute-list tokenizer (spec section 4.1, `attribute.rs`) -/

/-- Split at the first occurrence of `t`: `some (before, after)` when `t`
occurs, `none` otherwise. -/
def splitFirst (t : Char) : Str → Option (Str × Str)
  | [] => none
  | c :: rest =>
    if c = t then some ([], rest)
    else (splitFirst t rest).map (fun p => (c :: p.1, p.2))

theorem splitFirst_not_mem {t : Char} : ∀ {s : Str}, t ∉ s → splitFirst t s = none := by
  intro s
  induction s with
  | nil => intro _; rfl
  | cons c rest ih =>
    intro h
    simp only [List.mem_cons, not_or] at h
    simp [splitFirst, Ne.symm h.1, ih h.2]

theorem splitFirst_append {t : Char} {a : Str} (b : Str) (h : t ∉ a) :
    splitFirst t (a ++ t :: b) = some (a, b) := by
  induction a with
  | nil => simp [splitFirst]
  | cons c rest ih =>
    simp only [List.mem_cons, not_or] at h
    simp [splitFirst, Ne.symm h.1, ih h.2]

/-- `Modelled from the spec:` the attribute-list splitter of
`AttributePairs` (not under `src/`).  Splits on `,` at depth 0, where `"`
toggles the inside-a-quoted-value state; an unterminated quote is malformed
(spec section 4.1).  `acc` is the reversed current chunk. -/
def splitTopAux : Str → Bool → Str → Option (List Str)
  | [], true, _ => none
  | [], false, acc => some [acc.reverse]
  | c :: rest, inQ, acc =>
    if c = ',' ∧ inQ = false then
      (splitTopAux rest false []).map (fun l => acc.reverse :: l)
    else
      splitTopAux rest (if c = '"' then !inQ else inQ) (c :: acc)

theorem splitTopAux_cons (c : Char) (rest : Str) (inQ : Bool) (acc : Str) :
    splitTopAux (c :: rest) inQ acc =
      if c = ',' ∧ inQ = false then
        (splitTopAux rest false []).map (fun l => acc.reverse :: l)
      else splitTopAux rest (if c = '"' then !inQ else inQ) (c :: acc) := rfl

/-- A chunk is safe to appear between top-level commas: scanning it from
state `inQ` never meets a top-level comma and ends outside quotes. -/
def chunkOK : Str → Bool → Bool
  | [], inQ => !inQ
  | c :: rest, inQ =>
    if c = ',' ∧ inQ = false then false
    else chunkOK rest (if c = '"' then !inQ else inQ)

theorem chunkOK_cons (c : Char) (rest : Str) (inQ : Bool) :
    chunkOK (c :: rest) inQ =
      if c = ',' ∧ inQ = false then false
      else chunkOK rest (if c = '"' then !inQ else inQ) := rfl

theorem splitTopAux_comma {p : Str} :
    ∀ {inQ : Bool} {acc : Str}, chunkOK p inQ = true → ∀ rest,
      splitTopAux (p ++ ',' :: rest) inQ acc =
        (splitTopAux rest false []).map (fun l => (acc.reverse ++ p) :: l) := by
  induction p with
  | nil =>
    intro inQ acc h rest
    simp only [chunkOK, Bool.not_eq_true'] at h
    subst h
    simp [splitTopAux]
  | cons c cs ih =>
    intro inQ acc h rest
    rw [chunkOK_cons] at h
    by_cases hc : c = ',' ∧ inQ = false
    · rw [if_pos hc] at h; exact absurd h (by simp)
    · rw [if_neg hc] at h
      rw [List.cons_append, splitTopAux_cons, if_neg hc, ih h]
      simp

theorem splitTopAux_last {p : Str} :
    ∀ {inQ : Bool} {acc : Str}, chunkOK p inQ = true →
      splitTopAux p inQ acc = some [acc.reverse ++ p] := by
  induction p with
  | nil =>
    intro inQ acc h
    simp only [chunkOK, Bool.not_eq_true'] at h
    subst h
    simp [splitTopAux]
  | cons c cs ih =>
    intro inQ acc h
    rw [chunkOK_cons] at h
    by_cases hc : c = ',' ∧ inQ = false
    · rw [if_pos hc] at h; exact absurd h (by simp)
    · rw [if_neg hc] at h
      rw [splitTopAux_cons, if_neg hc, ih h]
      simp

/-- Characters that neither split chunks nor toggle quoting. -/
def charSafe (c : Char) : Prop := c ≠ ',' ∧ c ≠ '"'

instance (c : Char) : Decidable (charSafe c) := by unfold charSafe; infer_instance

theorem chunkOK_append_safe {a : Str} (b : Str) (h : ∀ c ∈ a, charSafe c) :
    chunkOK (a ++ b) false = chunkOK b false := by
  induction a with
  | nil => rfl
  | cons c cs ih =>
    obtain ⟨h1, h2⟩ := h c (by simp)
    rw [List.cons_append, chunkOK_cons, if_neg (by simp [h1]), if_neg h2]
    exact ih (fun d hd => h d (by simp [hd]))

theorem chunkOK_inQuotes {v : Str} (h : ('"' : Char) ∉ v) :
    ∀ rest, chunkOK (v ++ rest) true = chunkOK rest true := by
  induction v with
  | nil => intro rest; rfl
  | cons c cs ih =>
    intro rest
    simp only [List.mem_cons, not_or] at h
    rw [List.cons_append, chunkOK_cons, if_neg (by simp), if_neg (Ne.symm h.1)]
    exact ih h.2 rest

/-- A quoted value whose content has no quote characters is a safe chunk
suffix. -/
theorem chunkOK_quoted {v : Str} (h : ('"' : Char) ∉ v) :
    chunkOK ('"' :: v ++ ['"']) false = true := by
  rw [List.cons_append, chunkOK_cons, if_neg (by simp), if_pos rfl]
  rw [show (!false) = true from rfl, chunkOK_inQuotes h]
  rfl

theorem charSafe_of_digit {c : Char} (h : isDigitCh c = true) : charSafe c := by
  constructor
  · intro hc; rw [hc] at h; exact absurd h (by decide)
  · intro hc; rw [hc] at h; exact absurd h (by decide)

theorem not_mem_of_digits {t : Char} {s : Str} (hs : ∀ c ∈ s, isDigitCh c = true)
    (ht : isDigitCh t = false) : t ∉ s := by
  intro hmem
  have := hs t hmem
  rw [ht] at this
  exact Bool.false_ne_true this

/-- Split one attribute chunk on its first `=` (spec section 4.1: a pair
with no `=` is malformed). -/
def splitPair (chunk : Str) : Except HlsError (Str × Str) :=
  match splitFirst '=' chunk with
  | some kv => .ok kv
  | none => .error .malformedAttributeList

/-- `Modelled from the spec:` `AttributePairs` (not under `src/`): tokenize
an attribute-list body into (name, raw value) pairs, splitting on top-level
commas with quote awareness; malformed input (unterminated quote, pair
without `=`) fails with `malformedAttributeList` (spec sections 4.1, 7). -/
def AttributePairs.parse (s : Str) : Except HlsError (List (Str × Str)) :=
  if s = [] then .ok []
  else
    match splitTopAux s false [] with
    | none => .error .malformedAttributeList
    | some chunks => chunks.mapM splitPair

theorem except_bind_ok {ε α β : Type} (a : α) (f : α → Except ε β) :
    (Except.ok a >>= f : Except ε β) = f a := rfl

/-- The raw text of a pair: `KEY=VALUE`. -/
def encPair (kv : Str × Str) : Str := kv.1 ++ '=' :: kv.2

/-- Glue the non-first chunks of an attribute list, each preceded by a
comma (this is the shape the `Display` impls build, where every optional
attribute is written with a leading comma). -/
def glueTail : List Str → Str
  | [] => []
  | c :: rest => ',' :: (c ++ glueTail rest)

/-- Glue a full chunk list into an attribute-list body. -/
def glueAll : List Str → Str
  | [] => []
  | c :: rest => c ++ glueTail rest

theorem splitTopAux_glue {c : Str} {ts : List Str} (hc : chunkOK c false = true)
    (hts : ∀ x ∈ ts, chunkOK x false = true) :
    splitTopAux (c ++ glueTail ts) false [] = some (c :: ts) := by
  induction ts generalizing c with
  | nil =>
    rw [show glueTail [] = [] from rfl, List.append_nil, splitTopAux_last hc]
    rfl
  | cons x xs ih =>
    rw [show glueTail (x :: xs) = ',' :: (x ++ glueTail xs) from rfl]
    rw [splitTopAux_comma hc]
    rw [ih (hts x (by simp)) (fun y hy => hts y (by simp [hy]))]
    rfl

theorem mapM_splitPair {kvs : List (Str × Str)}
    (h : ∀ kv ∈ kvs, ('=' : Char) ∉ kv.1) :
    (kvs.map encPair).mapM splitPair = Except.ok kvs := by
  induction kvs with
  | nil => rfl
  | cons x xs ih =>
    rw [List.map_cons, List.mapM_cons]
    rw [show splitPair (encPair x) = .ok x by
      simp [splitPair, encPair, splitFirst_append x.2 (h x (by simp))]]
    rw [except_bind_ok, ih (fun kv hkv => h kv (by simp [hkv]))]
    rfl

theorem encPair_ne_nil (kv : Str × Str) : encPair kv ≠ [] := by
  unfold encPair
  cases kv.1 <;> simp

/-- Parsing the glued rendering of well-formed pairs recovers the pairs. -/
theorem AttributePairs.parse_glue {kvs : List (Str × Str)}
    (hok : ∀ kv ∈ kvs, chunkOK (encPair kv) false = true)
    (heq : ∀ kv ∈ kvs, ('=' : Char) ∉ kv.1) :
    AttributePairs.parse (glueAll (kvs.map encPair)) = .ok kvs := by
  cases kvs with
  | nil => rfl
  | cons x xs =>
    rw [List.map_cons, show glueAll (encPair x :: xs.map encPair) =
      encPair x ++ glueTail (xs.map encPair) from rfl]
    have hbody : encPair x ++ glueTail (xs.map encPair) ≠ [] := by
      intro hx
      exact encPair_ne_nil x (List.append_eq_nil.1 hx).1
    unfold AttributePairs.parse
    rw [if_neg hbody]
    rw [splitTopAux_glue (hok x (by simp)) (by
      intro y hy
      obtain ⟨kv, hkv, rfl⟩ := List.mem_map.1 hy
      exact hok kv (by simp [hkv]))]
    exact mapM_splitPair heq

/-! ### Primitive values (spec section 4.2) -/

/-- `Modelled from the spec:` `utils::quote` (not under `src/`): string
values are double-quoted on encode (spec section 6). -/
def quote (s : Str) : Str := '"' :: s ++ ['"']

/-- `Modelled from the spec:` `utils::unquote` (not under `src/`): strips
the surrounding pair of double quotes when present (spec section 4.2).
Total, since its call sites in `from_str` have no error path. -/
def unquote : Str → Str
  | '"' :: rest => if rest.getLast? = some '"' then rest.dropLast else '"' :: rest
  | s => s

theorem unquote_quote (s : Str) : unquote (quote s) = s := by
  rw [show quote s = '"' :: (s ++ ['"']) from rfl]
  rw [show unquote ('"' :: (s ++ ['"'])) =
    if (s ++ ['"']).getLast? = some '"' then (s ++ ['"']).dropLast
    else '"' :: (s ++ ['"']) from rfl]
  rw [if_pos (List.getLast?_concat s), List.dropLast_concat]

/-- `Modelled from the spec:` `types::QuotedString` (not under `src/`): a
validated string whose content carries no double-quote character, rendered
inside one pair of double quotes. -/
def QuotedString := {s : Str // ('"' : Char) ∉ s}

instance : DecidableEq QuotedString := by unfold QuotedString; infer_instance

def QuotedString.display (q : QuotedString) : Str := '"' :: q.val ++ ['"']

/-- `Modelled from the spec:` the quoted-string decoder (spec section 4.2):
exactly one pair of double quotes spanning the whole value, stripped;
otherwise `invalidQuotedString`. -/
def QuotedString.parse (s : Str) : Except HlsError QuotedString :=
  match s with
  | '"' :: rest =>
    if rest.getLast? = some ('"' : Char) then
      if hq : ('"' : Char) ∈ rest.dropLast then .error .invalidQuotedString
      else .ok ⟨rest.dropLast, hq⟩
    else .error .invalidQuotedString
  | _ => .error .invalidQuotedString

theorem quotedString_parse_display (q : QuotedString) :
    QuotedString.parse q.display = .ok q := by
  obtain ⟨v, hv⟩ := q
  rw [show QuotedString.display ⟨v, hv⟩ = '"' :: (v ++ ['"']) from rfl]
  simp [QuotedString.parse, List.getLast?_concat, List.dropLast_concat, hv]

/-- `Modelled from the spec:` `types::ByteRange` (not under `src/`):
`LENGTH@OFFSET` or `LENGTH`; the length is required and the offset
optional (spec section 4.2). -/
structure ByteRange where
  length : Nat
  start : Option Nat
  deriving DecidableEq

def ByteRange.display (r : ByteRange) : Str :=
  natToChars r.length ++
    (match r.start with
     | none => []
     | some s => '@' :: natToChars s)

def ByteRange.parse (s : Str) : Except HlsError ByteRange :=
  match splitFirst '@' s with
  | none =>
    match parseNat s with
    | some n => .ok ⟨n, none⟩
    | none => .error .invalidNumber
  | some (a, b) =>
    match parseNat a, parseNat b with
    | some n, some m => .ok ⟨n, some m⟩
    | _, _ => .error .invalidNumber

theorem at_not_mem_natToChars (n : Nat) : ('@' : Char) ∉ natToChars n :=
  not_mem_of_digits (natToChars_digits n) (by decide)

theorem byteRange_parse_display (r : ByteRange) : ByteRange.parse r.display = .ok r := by
  obtain ⟨len, st⟩ := r
  cases st with
  | none =>
    rw [show ByteRange.display ⟨len, none⟩ = natToChars len by
      simp [ByteRange.display]]
    simp [ByteRange.parse, splitFirst_not_mem (at_not_mem_natToChars len),
      parseNat_natToChars]
  | some s =>
    rw [show ByteRange.display ⟨len, some s⟩ = natToChars len ++ '@' :: natToChars s
      from rfl]
    simp [ByteRange.parse, splitFirst_append _ (at_not_mem_natToChars len),
      parseNat_natToChars]

theorem quote_not_mem_byteRange_display (r : ByteRange) :
    ('"' : Char) ∉ ByteRange.display r := by
  obtain ⟨len, st⟩ := r
  intro hmem
  cases st with
  | none =>
    rw [show ByteRange.display ⟨len, none⟩ = natToChars len by
      simp [ByteRange.display]] at hmem
    exact not_mem_of_digits (natToChars_digits _) (by decide) hmem
  | some s =>
    rw [show ByteRange.display ⟨len, some s⟩ = natToChars len ++ '@' :: natToChars s
      from rfl] at hmem
    rcases List.mem_append.1 hmem with h | h
    · exact not_mem_of_digits (natToChars_digits _) (by decide) h
    · simp only [List.mem_cons] at h
      rcases h with h | h
      · exact absurd h (by decide)
      · exact not_mem_of_digits (natToChars_digits _) (by decide) h

/-- `Modelled from the spec:` `types::DecimalResolution` (not under
`src/`): `WxH`, two unsigned integers separated by `x` (spec section 4.2). -/
structure DecimalResolution where
  width : Nat
  height : Nat
  deriving DecidableEq

def DecimalResolution.display (r : DecimalResolution) : Str :=
  natToChars r.width ++ 'x' :: natToChars r.height

def DecimalResolution.parse (s : Str) : Except HlsError DecimalResolution :=
  match splitFirst 'x' s with
  | none => .error .invalidResolution
  | some (a, b) =>
    match parseNat a, parseNat b with
    | some w, some h => .ok ⟨w, h⟩
    | _, _ => .error .invalidResolution

theorem x_not_mem_natToChars (n : Nat) : ('x' : Char) ∉ natToChars n :=
  not_mem_of_digits (natToChars_digits n) (by decide)

theorem decimalResolution_parse_display (r : DecimalResolution) :
    DecimalResolution.parse r.display = .ok r := by
  obtain ⟨w, h⟩ := r
  rw [show DecimalResolution.display ⟨w, h⟩ = natToChars w ++ 'x' :: natToChars h
    from rfl]
  simp [DecimalResolution.parse, splitFirst_append _ (x_not_mem_natToChars w),
    parseNat_natToChars]

/-- `Modelled from the spec:` `types::HdcpLevel` (not under `src/`): a
closed enumeration, matched case-sensitively (spec section 4.2). -/
inductive HdcpLevel where
  | type0
  | noOutput
  deriving DecidableEq

def HdcpLevel.display : HdcpLevel → Str
  | .type0 => ("TYPE-0").toList
  | .noOutput => ("NONE").toList

def HdcpLevel.parse (s : Str) : Except HlsError HdcpLevel :=
  if s = ("TYPE-0").toList then .ok .type0
  else if s = ("NONE").toList then .ok .noOutput
  else .error .invalidEnumValue

theorem hdcpLevel_parse_display (l : HdcpLevel) : HdcpLevel.parse l.display = .ok l := by
  cases l <;> rfl

/-- `Modelled from the spec:` `utils::parse_u64` (not under `src/`):
decimal digits only, otherwise `invalidNumber` (spec section 4.2). -/
def parseU64 (s : Str) : Except HlsError Nat :=
  match parseNat s with
  | some n => .ok n
  | none => .error .invalidNumber

theorem parseU64_natToChars (n : Nat) : parseU64 (natToChars n) = .ok n := by
  unfold parseU64
  rw [parseNat_natToChars]

/-- `types::ProtocolVersion` (not under `src/`): the total order of format
versions V1..V7 (spec section 4.4). -/
inductive ProtocolVersion where
  | V1 | V2 | V3 | V4 | V5 | V6 | V7
  deriving DecidableEq

def ProtocolVersion.toNat : ProtocolVersion → Nat
  | .V1 => 1
  | .V2 => 2
  | .V3 => 3
  | .V4 => 4
  | .V5 => 5
  | .V6 => 6
  | .V7 => 7

/-- The maximum of two protocol versions, as the `Ord`-based maximum the
version-aggregation helper uses. -/
def pvMax (a b : ProtocolVersion) : ProtocolVersion :=
  if a.toNat ≤ b.toNat then b else a

theorem pvMax_assoc (a b c : ProtocolVersion) :
    pvMax (pvMax a b) c = pvMax a (pvMax b c) := by
  cases a <;> cases b <;> cases c <;> decide

theorem pvMax_comm (a b : ProtocolVersion) : pvMax a b = pvMax b a := by
  cases a <;> cases b <;> decide

theorem pvMax_V1_left (a : ProtocolVersion) : pvMax .V1 a = a := by
  cases a <;> decide

theorem pvMax_V1_right (a : ProtocolVersion) : pvMax a .V1 = a := by
  cases a <;> decide

/-! ### Generic attribute-loop runner

Models the `for attr in attrs { match key { ... } }` loops of the tag
`from_str` implementations: process the pairs left to right, threading the
partial state, failing as soon as a recognized attribute's value fails to
decode. -/

def runAttrs {σ : Type} (step : σ → Str × Str → Except HlsError σ) :
    List (Str × Str) → σ → Except HlsError σ
  | [], st => .ok st
  | kv :: rest, st => do
    let st' ← step st kv
    runAttrs step rest st'

theorem runAttrs_nil {σ : Type} (step : σ → Str × Str → Except HlsError σ) (st : σ) :
    runAttrs step [] st = .ok st := rfl

theorem runAttrs_cons {σ : Type} (step : σ → Str × Str → Except HlsError σ)
    (kv : Str × Str) (rest : List (Str × Str)) (st : σ) :
    runAttrs step (kv :: rest) st =
      step st kv >>= fun st' => runAttrs step rest st' := rfl

theorem runAttrs_append {σ : Type} (step : σ → Str × Str → Except HlsError σ)
    (ps qs : List (Str × Str)) : ∀ st : σ,
    runAttrs step (ps ++ qs) st =
      runAttrs step ps st >>= fun st' => runAttrs step qs st' := by
  induction ps with
  | nil => intro st; rfl
  | cons kv rest ih =>
    intro st
    rw [List.cons_append, runAttrs_cons, runAttrs_cons]
    cases step st kv with
    | error e => rfl
    | ok st' =>
      rw [except_bind_ok, except_bind_ok, ih st']

/-- Chunk with only safe characters. -/
theorem chunkOK_of_safe {a : Str} (h : ∀ c ∈ a, charSafe c) : chunkOK a false = true := by
  have := chunkOK_append_safe [] h
  rwa [List.append_nil] at this

theorem chunkOK_encPair_quoted {k v : Str} (hk : ∀ c ∈ k ++ ['='], charSafe c)
    (hv : ('"' : Char) ∉ v) : chunkOK (encPair (k, quote v)) false = true := by
  rw [show encPair (k, quote v) = (k ++ ['=']) ++ ('"' :: v ++ ['"']) by
    simp [encPair, quote]]
  rw [chunkOK_append_safe _ hk]
  exact chunkOK_quoted hv

theorem chunkOK_encPair_safe {k v : Str} (hk : ∀ c ∈ k ++ ['='], charSafe c)
    (hv : ∀ c ∈ v, charSafe c) : chunkOK (encPair (k, v)) false = true := by
  rw [show encPair (k, v) = (k ++ ['=']) ++ v by simp [encPair]]
  rw [chunkOK_append_safe _ hk]
  exact chunkOK_of_safe hv

theorem mem_elim_single {α β : Type} {o : Option α} {g : α → β} {x : β}
    (h : x ∈ o.elim ([] : List β) (fun v => [g v])) :
    ∃ v, o = some v ∧ x = g v := by
  cases o with
  | none => simp at h
  | some v =>
    simp only [Option.elim_some, List.mem_singleton] at h
    exact ⟨v, rfl, h⟩

/-! ### `ExtXMap` (`src/src/tags/media_segment/map.rs`) -/

/-- The `EXT-X-MAP` tag (RFC 8216 section 4.3.2.5): a media initialization
section, with a required quoted `URI` and an optional quoted `BYTERANGE`. -/
structure ExtXMap where
  uri : QuotedString
  range : Option ByteRange
  deriving DecidableEq

/-- `ExtXMap::PREFIX`. -/
def ExtXMap.prefixStr : Str := ("#EXT-X-MAP:").toList

/-- `ExtXMap::new`. -/
def ExtXMap.new (uri : QuotedString) : ExtXMap := ⟨uri, none⟩

/-- `ExtXMap::with_range`. -/
def ExtXMap.with_range (uri : QuotedString) (range : ByteRange) : ExtXMap :=
  ⟨uri, some range⟩

/-- `ExtXMap::requires_version`: the source returns `ProtocolVersion::V6`
unconditionally. -/
def ExtXMap.requires_version (_ : ExtXMap) : ProtocolVersion := .V6

/-- `impl fmt::Display for ExtXMap`: the prefix, `URI=` with the quoted
uri, then `,BYTERANGE="…"` only when a range is present. -/
def ExtXMap.display (t : ExtXMap) : Str :=
  ExtXMap.prefixStr ++ ("URI=").toList ++ t.uri.display ++
    (match t.range with
     | none => []
     | some r => (",BYTERANGE=").toList ++ ('"' :: ByteRange.display r ++ ['"']))

/-- One iteration of the `for attr in attrs` loop of
`ExtXMap::from_str`: `URI` decodes a quoted string, `BYTERANGE` decodes a
quoted string and then a byte range, anything else is ignored. -/
def mapStep (st : Option QuotedString × Option ByteRange) (kv : Str × Str) :
    Except HlsError (Option QuotedString × Option ByteRange) :=
  if kv.1 = ("URI").toList then do
    let u ← QuotedString.parse kv.2
    .ok (some u, st.2)
  else if kv.1 = ("BYTERANGE").toList then do
    let q ← QuotedString.parse kv.2
    let r ← ByteRange.parse q.val
    .ok (st.1, some r)
  else .ok st

/-- `ExtXMap::from_str`: assert the prefix, tokenize the attribute list,
fold the recognized attributes, then require `URI` (failing with the
`trackable` `ErrorKind::InvalidInput`, which carries no attribute name). -/
def ExtXMap.from_str (s : Str) : Except HlsError ExtXMap :=
  if ExtXMap.prefixStr.isPrefixOf s then do
    let pairs ← AttributePairs.parse (s.drop ExtXMap.prefixStr.length)
    let st ← runAttrs mapStep pairs (none, none)
    match st.1 with
    | some uri => .ok ⟨uri, st.2⟩
    | none => .error .invalidInput
  else .error .invalidInput

/-- The attribute pairs `ExtXMap.display` renders. -/
def mapPairs (t : ExtXMap) : List (Str × Str) :=
  ((("URI").toList, t.uri.display)) ::
    t.range.elim [] (fun r => [((("BYTERANGE").toList, '"' :: ByteRange.display r ++ ['"']))])

theorem extXMap_display_glue (t : ExtXMap) :
    t.display = ExtXMap.prefixStr ++ glueAll ((mapPairs t).map encPair) := by
  obtain ⟨u, rg⟩ := t
  cases rg <;>
    simp [ExtXMap.display, mapPairs, glueAll, glueTail, encPair, QuotedString.display,
      show ("URI=").toList = ("URI").toList ++ ['='] by decide,
      show (",BYTERANGE=").toList = ',' :: (("BYTERANGE").toList ++ ['=']) by decide]

theorem mapPairs_chunkOK (t : ExtXMap) :
    ∀ kv ∈ mapPairs t, chunkOK (encPair kv) false = true := by
  intro kv hkv
  rcases List.mem_cons.1 hkv with rfl | hkv
  · exact chunkOK_encPair_quoted (by decide) t.uri.property
  · obtain ⟨r, _, rfl⟩ := mem_elim_single hkv
    exact chunkOK_encPair_quoted (by decide) (quote_not_mem_byteRange_display r)

theorem mapPairs_keys (t : ExtXMap) : ∀ kv ∈ mapPairs t, ('=' : Char) ∉ kv.1 := by
  intro kv hkv
  rcases List.mem_cons.1 hkv with rfl | hkv
  · exact (by decide : ('=' : Char) ∉ ("URI").toList)
  · obtain ⟨r, _, rfl⟩ := mem_elim_single hkv
    exact (by decide : ('=' : Char) ∉ ("BYTERANGE").toList)

theorem mapStep_uri (st : Option QuotedString × Option ByteRange) (v : Str) :
    mapStep st ((("URI").toList, v)) =
      QuotedString.parse v >>= fun u => .ok (some u, st.2) := rfl

theorem mapStep_byterange (st : Option QuotedString × Option ByteRange) (v : Str) :
    mapStep st ((("BYTERANGE").toList, v)) =
      QuotedString.parse v >>= fun q =>
        ByteRange.parse q.val >>= fun r => .ok (st.1, some r) := rfl

/-- Round-trip for `ExtXMap`: decoding the encoding of any constructible
value recovers the value. -/
theorem extXMap_roundtrip (t : ExtXMap) : ExtXMap.from_str t.display = .ok t := by
  obtain ⟨u, rg⟩ := t
  rw [extXMap_display_glue]
  unfold ExtXMap.from_str
  rw [if_pos (by rw [List.isPrefixOf_iff_prefix]; exact List.prefix_append _ _)]
  rw [show (ExtXMap.prefixStr ++ glueAll ((mapPairs ⟨u, rg⟩).map encPair)).drop
        ExtXMap.prefixStr.length = glueAll ((mapPairs ⟨u, rg⟩).map encPair) from
    List.drop_left _ _]
  rw [AttributePairs.parse_glue (mapPairs_chunkOK _) (mapPairs_keys _)]
  rw [except_bind_ok]
  cases rg with
  | none =>
    rw [show mapPairs ⟨u, none⟩ = [((("URI").toList, u.display))] from rfl]
    rw [runAttrs_cons, mapStep_uri, quotedString_parse_display, except_bind_ok,
      except_bind_ok, runAttrs_nil, except_bind_ok]
  | some r =>
    rw [show mapPairs ⟨u, some r⟩ =
      [((("URI").toList, u.display)),
       ((("BYTERANGE").toList, '"' :: ByteRange.display r ++ ['"']))] from rfl]
    rw [runAttrs_cons, mapStep_uri, quotedString_parse_display, except_bind_ok,
      except_bind_ok, runAttrs_cons, mapStep_byterange]
    rw [show QuotedString.parse ('"' :: ByteRange.display r ++ ['"']) =
        .ok ⟨ByteRange.display r, quote_not_mem_byteRange_display r⟩ from
      quotedString_parse_display ⟨ByteRange.display r, quote_not_mem_byteRange_display r⟩]
    rw [except_bind_ok, byteRange_parse_display, except_bind_ok, except_bind_ok,
      runAttrs_nil, except_bind_ok]

/-! ### `ExtXIFrameStreamInf`
(`src/src/tags/master_playlist/i_frame_stream_inf.rs`) -/

/-- The `EXT-X-I-FRAME-STREAM-INF` tag (RFC 8216 section 4.3.4.3): required
`URI` and `BANDWIDTH`, optional average bandwidth, codecs, resolution,
HDCP level and video group. -/
structure ExtXIFrameStreamInf where
  uri : Str
  bandwidth : Nat
  average_bandwidth : Option Nat
  codecs : Option Str
  resolution : Option DecimalResolution
  hdcp_level : Option HdcpLevel
  video : Option Str
  deriving DecidableEq

/-- `ExtXIFrameStreamInf::PREFIX`. -/
def ExtXIFrameStreamInf.prefixStr : Str := ("#EXT-X-I-FRAME-STREAM-INF:").toList

/-- `ExtXIFrameStreamInf::new`. -/
def ExtXIFrameStreamInf.new (uri : Str) (bandwidth : Nat) : ExtXIFrameStreamInf :=
  ⟨uri, bandwidth, none, none, none, none, none⟩

/-- `ExtXIFrameStreamInf::requires_version`: the source returns
`ProtocolVersion::V1` unconditionally (a `const fn` ignoring every field). -/
def ExtXIFrameStreamInf.requires_version (_ : ExtXIFrameStreamInf) : ProtocolVersion :=
  .V1

/-- `impl fmt::Display for ExtXIFrameStreamInf`: prefix, `URI`,
`BANDWIDTH`, then each optional attribute (with a leading comma) only when
present, in the fixed source order. -/
def ExtXIFrameStreamInf.display (t : ExtXIFrameStreamInf) : Str :=
  ExtXIFrameStreamInf.prefixStr ++ ("URI=").toList ++ quote t.uri ++
    (",BANDWIDTH=").toList ++ natToChars t.bandwidth ++
    (match t.average_bandwidth with
     | none => []
     | some v => (",AVERAGE-BANDWIDTH=").toList ++ natToChars v) ++
    (match t.codecs with
     | none => []
     | some v => (",CODECS=").toList ++ quote v) ++
    (match t.resolution with
     | none => []
     | some r => (",RESOLUTION=").toList ++ DecimalResolution.display r) ++
    (match t.hdcp_level with
     | none => []
     | some l => (",HDCP-LEVEL=").toList ++ HdcpLevel.display l) ++
    (match t.video with
     | none => []
     | some v => (",VIDEO=").toList ++ quote v)

/-- The partially decoded state of `ExtXIFrameStreamInf::from_str` (one
`Option` per attribute, all starting at `None`). -/
structure IFrameAcc where
  uri : Option Str := none
  bandwidth : Option Nat := none
  average_bandwidth : Option Nat := none
  codecs : Option Str := none
  resolution : Option DecimalResolution := none
  hdcp_level : Option HdcpLevel := none
  video : Option Str := none

/-- One iteration of the `for (key, value)` loop of
`ExtXIFrameStreamInf::from_str`: each recognized attribute overwrites its
slot; unrecognized names are ignored. -/
def iframeStep (st : IFrameAcc) (kv : Str × Str) : Except HlsError IFrameAcc :=
  if kv.1 = ("URI").toList then .ok { st with uri := some (unquote kv.2) }
  else if kv.1 = ("BANDWIDTH").toList then do
    let n ← parseU64 kv.2
    .ok { st with bandwidth := some n }
  else if kv.1 = ("AVERAGE-BANDWIDTH").toList then do
    let n ← parseU64 kv.2
    .ok { st with average_bandwidth := some n }
  else if kv.1 = ("CODECS").toList then .ok { st with codecs := some (unquote kv.2) }
  else if kv.1 = ("RESOLUTION").toList then do
    let r ← DecimalResolution.parse kv.2
    .ok { st with resolution := some r }
  else if kv.1 = ("HDCP-LEVEL").toList then do
    let l ← HdcpLevel.parse kv.2
    .ok { st with hdcp_level := some l }
  else if kv.1 = ("VIDEO").toList then .ok { st with video := some (unquote kv.2) }
  else .ok st

/-- `ExtXIFrameStreamInf::from_str`: strip the prefix, tokenize, fold the
attributes, then require `URI` and `BANDWIDTH` in that order, failing with
`Error::missing_value(name)`. -/
def ExtXIFrameStreamInf.from_str (s : Str) : Except HlsError ExtXIFrameStreamInf :=
  if ExtXIFrameStreamInf.prefixStr.isPrefixOf s then do
    let pairs ← AttributePairs.parse (s.drop ExtXIFrameStreamInf.prefixStr.length)
    let st ← runAttrs iframeStep pairs {}
    match st.uri with
    | none => .error (.missingValue (("URI").toList))
    | some uri =>
      match st.bandwidth with
      | none => .error (.missingValue (("BANDWIDTH").toList))
      | some bandwidth =>
        .ok ⟨uri, bandwidth, st.average_bandwidth, st.codecs, st.resolution,
          st.hdcp_level, st.video⟩
  else .error .invalidInput

/-- The attribute pairs `ExtXIFrameStreamInf.display` renders, in order. -/
def iframePairs (t : ExtXIFrameStreamInf) : List (Str × Str) :=
  ((("URI").toList, quote t.uri)) :: ((("BANDWIDTH").toList, natToChars t.bandwidth)) ::
    (t.average_bandwidth.elim []
      (fun v => [((("AVERAGE-BANDWIDTH").toList, natToChars v))]) ++
     (t.codecs.elim [] (fun v => [((("CODECS").toList, quote v))]) ++
      (t.resolution.elim []
        (fun r => [((("RESOLUTION").toList, DecimalResolution.display r))]) ++
       (t.hdcp_level.elim []
         (fun l => [((("HDCP-LEVEL").toList, HdcpLevel.display l))]) ++
        t.video.elim [] (fun v => [((("VIDEO").toList, quote v))])))))

theorem iframe_display_glue (t : ExtXIFrameStreamInf) :
    t.display = ExtXIFrameStreamInf.prefixStr ++ glueAll ((iframePairs t).map encPair) := by
  obtain ⟨u, b, ab, cd, rs, hd, vd⟩ := t
  cases ab <;> cases cd <;> cases rs <;> cases hd <;> cases vd <;>
    simp [ExtXIFrameStreamInf.display, iframePairs, glueAll, glueTail, encPair,
      show ("URI=").toList = ("URI").toList ++ ['='] by decide,
      show (",BANDWIDTH=").toList = ',' :: (("BANDWIDTH").toList ++ ['=']) by decide,
      show (",AVERAGE-BANDWIDTH=").toList =
        ',' :: (("AVERAGE-BANDWIDTH").toList ++ ['=']) by decide,
      show (",CODECS=").toList = ',' :: (("CODECS").toList ++ ['=']) by decide,
      show (",RESOLUTION=").toList = ',' :: (("RESOLUTION").toList ++ ['=']) by decide,
      show (",HDCP-LEVEL=").toList = ',' :: (("HDCP-LEVEL").toList ++ ['=']) by decide,
      show (",VIDEO=").toList = ',' :: (("VIDEO").toList ++ ['=']) by decide]

theorem safe_resolution_display (r : DecimalResolution) :
    ∀ c ∈ DecimalResolution.display r, charSafe c := by
  intro c hc
  unfold DecimalResolution.display at hc
  rcases List.mem_append.1 hc with h | h
  · exact charSafe_of_digit (natToChars_digits _ _ h)
  · rcases List.mem_cons.1 h with rfl | h
    · decide
    · exact charSafe_of_digit (natToChars_digits _ _ h)

theorem safe_hdcp_display (l : HdcpLevel) : ∀ c ∈ HdcpLevel.display l, charSafe c := by
  cases l <;> decide

theorem iframePairs_chunkOK {t : ExtXIFrameStreamInf}
    (hu : ('"' : Char) ∉ t.uri)
    (hc : ∀ s ∈ t.codecs, ('"' : Char) ∉ s)
    (hv : ∀ s ∈ t.video, ('"' : Char) ∉ s) :
    ∀ kv ∈ iframePairs t, chunkOK (encPair kv) false = true := by
  intro kv hkv
  rcases List.mem_cons.1 hkv with rfl | hkv
  · exact chunkOK_encPair_quoted (by decide) hu
  rcases List.mem_cons.1 hkv with rfl | hkv
  · exact chunkOK_encPair_safe (by decide)
      (fun c hc => charSafe_of_digit (natToChars_digits _ _ hc))
  rcases List.mem_append.1 hkv with h | hkv
  · obtain ⟨v, _, rfl⟩ := mem_elim_single h
    exact chunkOK_encPair_safe (by decide)
      (fun c hc => charSafe_of_digit (natToChars_digits _ _ hc))
  rcases List.mem_append.1 hkv with h | hkv
  · obtain ⟨v, hv', rfl⟩ := mem_elim_single h
    exact chunkOK_encPair_quoted (by decide) (hc v hv')
  rcases List.mem_append.1 hkv with h | hkv
  · obtain ⟨r, _, rfl⟩ := mem_elim_single h
    exact chunkOK_encPair_safe (by decide) (safe_resolution_display r)
  rcases List.mem_append.1 hkv with h | h
  · obtain ⟨l, _, rfl⟩ := mem_elim_single h
    exact chunkOK_encPair_safe (by decide) (safe_hdcp_display l)
  · obtain ⟨v, hv', rfl⟩ := mem_elim_single h
    exact chunkOK_encPair_quoted (by decide) (hv v hv')

theorem iframePairs_keys (t : ExtXIFrameStreamInf) :
    ∀ kv ∈ iframePairs t, ('=' : Char) ∉ kv.1 := by
  intro kv hkv
  rcases List.mem_cons.1 hkv with rfl | hkv
  · exact (by decide : ('=' : Char) ∉ ("URI").toList)
  rcases List.mem_cons.1 hkv with rfl | hkv
  · exact (by decide : ('=' : Char) ∉ ("BANDWIDTH").toList)
  rcases List.mem_append.1 hkv with h | hkv
  · obtain ⟨v, _, rfl⟩ := mem_elim_single h
    exact (by decide : ('=' : Char) ∉ ("AVERAGE-BANDWIDTH").toList)
  rcases List.mem_append.1 hkv with h | hkv
  · obtain ⟨v, _, rfl⟩ := mem_elim_single h
    exact (by decide : ('=' : Char) ∉ ("CODECS").toList)
  rcases List.mem_append.1 hkv with h | hkv
  · obtain ⟨r, _, rfl⟩ := mem_elim_single h
    exact (by decide : ('=' : Char) ∉ ("RESOLUTION").toList)
  rcases List.mem_append.1 hkv with h | h
  · obtain ⟨l, _, rfl⟩ := mem_elim_single h
    exact (by decide : ('=' : Char) ∉ ("HDCP-LEVEL").toList)
  · obtain ⟨v, _, rfl⟩ := mem_elim_single h
    exact (by decide : ('=' : Char) ∉ ("VIDEO").toList)

theorem iframeStep_uri (st : IFrameAcc) (v : Str) :
    iframeStep st ((("URI").toList, v)) = .ok { st with uri := some (unquote v) } := rfl

theorem iframeStep_bandwidth (st : IFrameAcc) (v : Str) :
    iframeStep st ((("BANDWIDTH").toList, v)) =
      parseU64 v >>= fun n => .ok { st with bandwidth := some n } := rfl

theorem iframeStep_ab (st : IFrameAcc) (v : Str) :
    iframeStep st ((("AVERAGE-BANDWIDTH").toList, v)) =
      parseU64 v >>= fun n => .ok { st with average_bandwidth := some n } := rfl

theorem iframeStep_codecs (st : IFrameAcc) (v : Str) :
    iframeStep st ((("CODECS").toList, v)) =
      .ok { st with codecs := some (unquote v) } := rfl

theorem iframeStep_resolution (st : IFrameAcc) (v : Str) :
    iframeStep st ((("RESOLUTION").toList, v)) =
      DecimalResolution.parse v >>= fun r => .ok { st with resolution := some r } := rfl

theorem iframeStep_hdcp (st : IFrameAcc) (v : Str) :
    iframeStep st ((("HDCP-LEVEL").toList, v)) =
      HdcpLevel.parse v >>= fun l => .ok { st with hdcp_level := some l } := rfl

theorem iframeStep_video (st : IFrameAcc) (v : Str) :
    iframeStep st ((("VIDEO").toList, v)) =
      .ok { st with video := some (unquote v) } := rfl

theorem runAttrs_iframe_ab (o : Option Nat) (st : IFrameAcc) :
    runAttrs iframeStep
        (o.elim [] (fun v => [((("AVERAGE-BANDWIDTH").toList, natToChars v))])) st =
      .ok (match o with
           | none => st
           | some v => { st with average_bandwidth := some v }) := by
  cases o with
  | none => rfl
  | some v =>
    rw [Option.elim_some, runAttrs_cons, iframeStep_ab, parseU64_natToChars,
      except_bind_ok, except_bind_ok, runAttrs_nil]

theorem runAttrs_iframe_codecs (o : Option Str) (st : IFrameAcc) :
    runAttrs iframeStep (o.elim [] (fun v => [((("CODECS").toList, quote v))])) st =
      .ok (match o with
           | none => st
           | some v => { st with codecs := some v }) := by
  cases o with
  | none => rfl
  | some v =>
    rw [Option.elim_some, runAttrs_cons, iframeStep_codecs, unquote_quote,
      except_bind_ok, runAttrs_nil]

theorem runAttrs_iframe_resolution (o : Option DecimalResolution) (st : IFrameAcc) :
    runAttrs iframeStep
        (o.elim [] (fun r => [((("RESOLUTION").toList, DecimalResolution.display r))])) st =
      .ok (match o with
           | none => st
           | some r => { st with resolution := some r }) := by
  cases o with
  | none => rfl
  | some r =>
    rw [Option.elim_some, runAttrs_cons, iframeStep_resolution,
      decimalResolution_parse_display, except_bind_ok, except_bind_ok, runAttrs_nil]

theorem runAttrs_iframe_hdcp (o : Option HdcpLevel) (st : IFrameAcc) :
    runAttrs iframeStep
        (o.elim [] (fun l => [((("HDCP-LEVEL").toList, HdcpLevel.display l))])) st =
      .ok (match o with
           | none => st
           | some l => { st with hdcp_level := some l }) := by
  cases o with
  | none => rfl
  | some l =>
    rw [Option.elim_some, runAttrs_cons, iframeStep_hdcp, hdcpLevel_parse_display,
      except_bind_ok, except_bind_ok, runAttrs_nil]

theorem runAttrs_iframe_video (o : Option Str) (st : IFrameAcc) :
    runAttrs iframeStep (o.elim [] (fun v => [((("VIDEO").toList, quote v))])) st =
      .ok (match o with
           | none => st
           | some v => { st with video := some v }) := by
  cases o with
  | none => rfl
  | some v =>
    rw [Option.elim_some, runAttrs_cons, iframeStep_video, unquote_quote,
      except_bind_ok, runAttrs_nil]

/-- Round-trip for `ExtXIFrameStreamInf`, for every value whose string
fields carry no double-quote character. -/
theorem iframe_roundtrip (t : ExtXIFrameStreamInf)
    (hu : ('"' : Char) ∉ t.uri)
    (hc : ∀ s ∈ t.codecs, ('"' : Char) ∉ s)
    (hv : ∀ s ∈ t.video, ('"' : Char) ∉ s) :
    ExtXIFrameStreamInf.from_str t.display = .ok t := by
  rw [iframe_display_glue]
  unfold ExtXIFrameStreamInf.from_str
  rw [if_pos (by rw [List.isPrefixOf_iff_prefix]; exact List.prefix_append _ _)]
  rw [List.drop_left]
  rw [AttributePairs.parse_glue (iframePairs_chunkOK hu hc hv) (iframePairs_keys t)]
  rw [except_bind_ok]
  obtain ⟨u, b, ab, cd, rs, hd, vd⟩ := t
  rw [show iframePairs ⟨u, b, ab, cd, rs, hd, vd⟩ =
    ((("URI").toList, quote u)) :: ((("BANDWIDTH").toList, natToChars b)) ::
      (ab.elim [] (fun v => [((("AVERAGE-BANDWIDTH").toList, natToChars v))]) ++
       (cd.elim [] (fun v => [((("CODECS").toList, quote v))]) ++
        (rs.elim [] (fun r => [((("RESOLUTION").toList, DecimalResolution.display r))]) ++
         (hd.elim [] (fun l => [((("HDCP-LEVEL").toList, HdcpLevel.display l))]) ++
          vd.elim [] (fun v => [((("VIDEO").toList, quote v))]))))) from rfl]
  rw [runAttrs_cons, iframeStep_uri, unquote_quote, except_bind_ok]
  rw [runAttrs_cons, iframeStep_bandwidth, parseU64_natToChars, except_bind_ok,
    except_bind_ok]
  rw [runAttrs_append, runAttrs_iframe_ab, except_bind_ok]
  cases ab <;>
    (rw [runAttrs_append, runAttrs_iframe_codecs, except_bind_ok]
     cases cd <;>
       (rw [runAttrs_append, runAttrs_iframe_resolution, except_bind_ok]
        cases rs <;>
          (rw [runAttrs_append, runAttrs_iframe_hdcp, except_bind_ok]
           cases hd <;>
             (rw [runAttrs_iframe_video, except_bind_ok]
              cases vd <;> rfl))))

/-! ### Media-segment tags that are referenced by `src/src/media_segment.rs`
but whose own sources are not under `src/` — modelled from the spec. -/

/-- `Modelled from the spec:` `types::DecryptionKey` (not under `src/`): a
decryption-key descriptor; its inner fields are irrelevant to the claims,
only its identity is. -/
structure DecryptionKey where
  uri : Str
  deriving DecidableEq

/-- `Modelled from the spec:` `tags::ExtXKey` (not under `src/`): either an
explicit empty-key marker (an unencrypted segment) or a decryption key
(spec section 3: `keys … may be empty = unencrypted`). -/
abbrev ExtXKey := Option DecryptionKey

/-- `ExtXKey::empty`: the explicit empty-key marker. -/
def ExtXKey.empty : ExtXKey := none

/-- `ExtXKey::as_ref`: the contained key, when the marker is not empty. -/
def ExtXKey.as_ref (k : ExtXKey) : Option DecryptionKey := k

/-- `Modelled from the spec:` the version an `ExtXKey` requires — the spec
names no version-sensitive field for it, so the baseline (spec section
4.4, 9). -/
def ExtXKey.required_version (_ : ExtXKey) : ProtocolVersion := .V1

/-- `Modelled from the spec:` `tags::ExtXByteRange` (not under `src/`): the
`#EXT-X-BYTERANGE:` tag wrapping a byte range; `5..25` converts to length
20 at offset 5 (spec section 8 example). -/
structure ExtXByteRange where
  range : ByteRange
  deriving DecidableEq

/-- `From<Range> for ExtXByteRange`: `s..e` becomes length `e - s` at
offset `s`. -/
def ExtXByteRange.fromRange (s e : Nat) : ExtXByteRange := ⟨⟨e - s, some s⟩⟩

def ExtXByteRange.display (t : ExtXByteRange) : Str :=
  ("#EXT-X-BYTERANGE:").toList ++ ByteRange.display t.range

/-- `Modelled from the spec:` baseline version for the byte-range tag (the
spec leaves each tag kind's floor as a per-kind named constant, section 9). -/
def ExtXByteRange.required_version (_ : ExtXByteRange) : ProtocolVersion := .V1

/-- `Modelled from the spec:` `tags::ExtXDateRange` (not under `src/`): a
date range with an identifier; only its line rendering matters here. -/
structure ExtXDateRange where
  id : Str
  deriving DecidableEq

def ExtXDateRange.display (t : ExtXDateRange) : Str :=
  ("#EXT-X-DATERANGE:ID=").toList ++ quote t.id

/-- `Modelled from the spec:` baseline version for the date-range tag. -/
def ExtXDateRange.required_version (_ : ExtXDateRange) : ProtocolVersion := .V1

/-- `Modelled from the spec:` `tags::ExtXDiscontinuity` (not under `src/`):
the bare `#EXT-X-DISCONTINUITY` marker line. -/
structure ExtXDiscontinuity where
  deriving DecidableEq

def ExtXDiscontinuity.display (_ : ExtXDiscontinuity) : Str :=
  ("#EXT-X-DISCONTINUITY").toList

/-- `Modelled from the spec:` baseline version for the discontinuity tag. -/
def ExtXDiscontinuity.required_version (_ : ExtXDiscontinuity) : ProtocolVersion := .V1

/-- `Modelled from the spec:` `tags::ExtXProgramDateTime` (not under
`src/`): an absolute timestamp anchor, rendered after its prefix. -/
structure ExtXProgramDateTime where
  date_time : Str
  deriving DecidableEq

def ExtXProgramDateTime.display (t : ExtXProgramDateTime) : Str :=
  ("#EXT-X-PROGRAM-DATE-TIME:").toList ++ t.date_time

/-- `Modelled from the spec:` baseline version for the program-date-time
tag. -/
def ExtXProgramDateTime.required_version (_ : ExtXProgramDateTime) : ProtocolVersion := .V1

/-- `Modelled from the spec:` `tags::ExtInf` (not under `src/`): the
required duration line `#EXTINF:<seconds>,<title?>` (spec sections 3, 8:
the `4,` example); durations constructed from whole seconds. -/
structure ExtInf where
  duration : Nat
  title : Option Str
  deriving DecidableEq

def ExtInf.new (duration : Nat) : ExtInf := ⟨duration, none⟩

def ExtInf.display (t : ExtInf) : Str :=
  ("#EXTINF:").toList ++ natToChars t.duration ++ [','] ++ t.title.getD []

/-- `Modelled from the spec:` baseline version for the duration tag. -/
def ExtInf.required_version (_ : ExtInf) : ProtocolVersion := .V1

/-! ### `MediaSegment` (`src/src/media_segment.rs`) -/

/-- One downloadable chunk of media (spec section 3). -/
structure MediaSegment where
  number : Nat
  explicit_number : Bool
  keys : List ExtXKey
  map : Option ExtXMap
  byte_range : Option ExtXByteRange
  date_range : Option ExtXDateRange
  has_discontinuity : Bool
  program_date_time : Option ExtXProgramDateTime
  inf : ExtInf
  uri : Str
  deriving DecidableEq

/-- `impl fmt::Display for MediaSegment`: one `writeln!` per present
optional tag in source order (keys are printed by the playlist, not here),
then the duration line and the uri line. -/
def MediaSegment.display (s : MediaSegment) : Str :=
  (match s.map with
   | none => []
   | some v => v.display ++ ['\n']) ++
  (match s.byte_range with
   | none => []
   | some v => v.display ++ ['\n']) ++
  (match s.date_range with
   | none => []
   | some v => v.display ++ ['\n']) ++
  (if s.has_discontinuity then ExtXDiscontinuity.display ⟨⟩ ++ ['\n'] else []) ++
  (match s.program_date_time with
   | none => []
   | some v => v.display ++ ['\n']) ++
  s.inf.display ++ ['\n'] ++ s.uri ++ ['\n']

/-- `Modelled from the spec:` the `RequiredVersion` impl for `Option` used
by the aggregation helper (not under `src/`): an absent field contributes
the baseline (spec section 4.4). -/
def optRV {α : Type} (f : α → ProtocolVersion) : Option α → ProtocolVersion
  | none => .V1
  | some v => f v

/-- `Modelled from the spec:` the `RequiredVersion` impl for `Vec` (not
under `src/`): the maximum over the elements, baseline when empty. -/
def listRV {α : Type} (f : α → ProtocolVersion) (l : List α) : ProtocolVersion :=
  l.foldl (fun acc x => pvMax acc (f x)) .V1

/-- `impl RequiredVersion for MediaSegment`, with the `required_version!`
macro modelled from the spec as the maximum over the listed contributions
(spec section 4.4); the discontinuity contributes only when the flag is
set, exactly as the source's inline `if`. -/
def MediaSegment.required_version (s : MediaSegment) : ProtocolVersion :=
  pvMax (listRV ExtXKey.required_version s.keys)
    (pvMax (optRV ExtXMap.requires_version s.map)
      (pvMax (optRV ExtXByteRange.required_version s.byte_range)
        (pvMax (optRV ExtXDateRange.required_version s.date_range)
          (pvMax (optRV ExtXDiscontinuity.required_version
              (if s.has_discontinuity then some ⟨⟩ else none))
            (pvMax (optRV ExtXProgramDateTime.required_version s.program_date_time)
              (ExtInf.required_version s.inf))))))

/-- `impl Decryptable for MediaSegment`:
`self.keys.iter().filter_map(ExtXKey::as_ref).collect()`. -/
def MediaSegment.decryptKeys (s : MediaSegment) : List DecryptionKey :=
  s.keys.filterMap ExtXKey.as_ref

/-! ### `MediaSegmentBuilder` (`derive_builder` on `MediaSegment`) -/

/-- `Modelled from the spec:` the builder draft generated by
`derive_builder` (spec section 9: optional slots, finalize validates
required fields): one `Option` slot per field, all starting unset. -/
structure MediaSegmentBuilder where
  number : Option Nat := none
  explicit_number : Option Bool := none
  keys : Option (List ExtXKey) := none
  map : Option (Option ExtXMap) := none
  byte_range : Option (Option ExtXByteRange) := none
  date_range : Option (Option ExtXDateRange) := none
  has_discontinuity : Option Bool := none
  program_date_time : Option (Option ExtXProgramDateTime) := none
  inf : Option ExtInf := none
  uri : Option Str := none
  deriving DecidableEq

/-- `MediaSegment::builder`. -/
def MediaSegment.builder : MediaSegmentBuilder := {}

/-- `MediaSegmentBuilder::number` (the custom setter in the source): store
the argument and record whether it was `Some`. -/
def MediaSegmentBuilder.setNumber (b : MediaSegmentBuilder) (value : Option Nat) :
    MediaSegmentBuilder :=
  { b with number := value, explicit_number := some value.isSome }

/-- `Modelled from the spec:` `derive_builder`'s generated `build` (spec
section 9): fields marked `#[builder(default)]` fall back to the type's
default when unset; the required `inf` and `uri` produce an error naming
the field when unset. -/
def MediaSegmentBuilder.build (b : MediaSegmentBuilder) : Except Str MediaSegment :=
  match b.inf with
  | none => .error (("inf").toList)
  | some inf =>
    match b.uri with
    | none => .error (("uri").toList)
    | some uri =>
      .ok { number := b.number.getD 0
            explicit_number := b.explicit_number.getD false
            keys := b.keys.getD []
            map := b.map.getD none
            byte_range := b.byte_range.getD none
            date_range := b.date_range.getD none
            has_discontinuity := b.has_discontinuity.getD false
            program_date_time := b.program_date_time.getD none
            inf := inf
            uri := uri }

/-! ### Supporting lemmas for the claims -/

instance : Std.Associative pvMax := ⟨pvMax_assoc⟩

instance : Std.Commutative pvMax := ⟨pvMax_comm⟩

theorem listRV_eq_foldl {α : Type} (f : α → ProtocolVersion) (l : List α) :
    listRV f l = (l.map f).foldl pvMax .V1 := by
  rw [listRV, List.foldl_map]

theorem filterMap_as_ref_foldr (l : List ExtXKey) :
    l.filterMap ExtXKey.as_ref =
      l.foldr (fun k acc => match k with | some d => d :: acc | none => acc) [] := by
  induction l with
  | nil => rfl
  | cons k rest ih => cases k <;> simp [ExtXKey.as_ref, List.filterMap_cons, ih]

/-- The concrete segment of the spec's end-to-end example (section 8) and
of the claim: init-section, byte range `5..25`, discontinuity, 4-second
duration, uri. -/
def exampleSegment : MediaSegment :=
  { number := 0
    explicit_number := false
    keys := []
    map := some (ExtXMap.new ⟨("https://example.com/").toList, by decide⟩)
    byte_range := some (ExtXByteRange.fromRange 5 25)
    date_range := none
    has_discontinuity := true
    program_date_time := none
    inf := ExtInf.new 4
    uri := ("http://uri.com/").toList }

/-- Claim C1: encoding a `MediaSegment` renders exactly its present
optional tags, one line each, in the fixed order init-section, byte-range,
date-range, discontinuity, program-date-time, then the duration line and
the uri line, with no blank lines; on the example segment this gives
exactly the five expected lines. -/
theorem claim_C1_segment_display :
    (∀ s : MediaSegment,
      s.display =
        ((List.filterMap id
            [s.map.map ExtXMap.display,
             s.byte_range.map ExtXByteRange.display,
             s.date_range.map ExtXDateRange.display,
             if s.has_discontinuity then some (ExtXDiscontinuity.display ⟨⟩) else none,
             s.program_date_time.map ExtXProgramDateTime.display] ++
          [s.inf.display, s.uri]).map (fun l => l ++ ['\n'])).flatten) ∧
    exampleSegment.display =
      ("#EXT-X-MAP:URI=\"https://example.com/\"\n" ++
       "#EXT-X-BYTERANGE:20@5\n" ++
       "#EXT-X-DISCONTINUITY\n" ++
       "#EXTINF:4,\n" ++
       "http://uri.com/\n").toList := by
  constructor
  · intro s
    obtain ⟨n, en, ks, mp, br, dr, hd, pdt, inf, uri⟩ := s
    cases mp <;> cases br <;> cases dr <;> cases hd <;> cases pdt <;>
      simp [MediaSegment.display]
  · decide

/-- A concrete `ExtXMap` with no byte range. -/
def mapNoRange : ExtXMap := ExtXMap.new ⟨("a").toList, by decide⟩

/-- Claim C3 counterexample: an `ExtXMap` without a byte range does not
require the baseline version — `requires_version` returns `V6` even with
no range present. -/
theorem claim_C3_cex : mapNoRange.requires_version ≠ ProtocolVersion.V1 := by
  decide

/-- Claim C3 (amended): `ExtXMap::requires_version` returns `V6` for every
value, whether or not a byte range is present. -/
theorem claim_C3_v6 : ∀ m : ExtXMap, m.requires_version = ProtocolVersion.V6 :=
  fun _ => rfl

/-- Claim C7: `ExtXIFrameStreamInf::requires_version` returns the baseline
`V1` for every value, regardless of which optional fields are present. -/
theorem claim_C7_v1 : ∀ t : ExtXIFrameStreamInf, t.requires_version = ProtocolVersion.V1 :=
  fun _ => rfl

/-- Claim C8: `MediaSegmentBuilder::number` with `Some n` pins the number
and records the override; with `None` it clears both; a builder whose
`number` was never called builds a segment with `number = 0` and
`explicit_number = false`, and after `setNumber (some n)` it builds one
with `number = n` and `explicit_number = true`. -/
theorem claim_C8_builder_number :
    (∀ (b : MediaSegmentBuilder) (n : Nat),
      (b.setNumber (some n)).number = some n ∧
      (b.setNumber (some n)).explicit_number = some true) ∧
    (∀ b : MediaSegmentBuilder,
      (b.setNumber none).number = none ∧
      (b.setNumber none).explicit_number = some false) ∧
    (∀ (inf : ExtInf) (uri : Str),
      MediaSegmentBuilder.build { MediaSegment.builder with inf := some inf, uri := some uri } =
        .ok { number := 0, explicit_number := false, keys := [], map := none,
              byte_range := none, date_range := none, has_discontinuity := false,
              program_date_time := none, inf := inf, uri := uri }) ∧
    (∀ (inf : ExtInf) (uri : Str) (n : Nat),
      MediaSegmentBuilder.build
          ((MediaSegmentBuilder.setNumber
            { MediaSegment.builder with inf := some inf, uri := some uri }) (some n)) =
        .ok { number := n, explicit_number := true, keys := [], map := none,
              byte_range := none, date_range := none, has_discontinuity := false,
              program_date_time := none, inf := inf, uri := uri }) := by
  refine ⟨fun b n => ⟨rfl, rfl⟩, fun b => ⟨rfl, rfl⟩, fun inf uri => rfl, fun inf uri n => rfl⟩

/-- Claim C9: `Decryptable::keys` on a segment returns exactly the
non-empty decryption keys in declaration order; a keys field holding only
explicit empty markers yields the empty list. -/
theorem claim_C9_decrypt_keys :
    (∀ s : MediaSegment,
      s.decryptKeys =
        s.keys.foldr (fun k acc => match k with | some d => d :: acc | none => acc) []) ∧
    (∀ s : MediaSegment, (∀ k ∈ s.keys, k = ExtXKey.empty) → s.decryptKeys = []) := by
  constructor
  · intro s
    exact filterMap_as_ref_foldr s.keys
  · intro s h
    exact List.filterMap_eq_nil_iff.2 (fun k hk => by rw [h k hk]; rfl)

/-- A concrete segment whose keys are only explicit empty markers. -/
def segEmptyKeys : MediaSegment :=
  { number := 0, explicit_number := false, keys := [ExtXKey.empty, ExtXKey.empty],
    map := none, byte_range := none, date_range := none, has_discontinuity := false,
    program_date_time := none, inf := ExtInf.new 1, uri := ("u").toList }

/-- Claim C9 witness: a segment carrying only empty-key markers decrypts
to no keys. -/
theorem claim_C9_witness : segEmptyKeys.decryptKeys = [] :=
  claim_C9_decrypt_keys.2 segEmptyKeys (by decide)

/-- The i-frame value exhibiting the round-trip failure: its uri carries a
double-quote character, which the encoder embeds verbatim inside the
quoted attribute, making the rendered attribute list unparseable. -/
def badIFrame : ExtXIFrameStreamInf :=
  ⟨("a\"b").toList, 1, none, none, none, none, none⟩

/-- Claim C2 counterexample: a constructible `ExtXIFrameStreamInf` (public
`new` accepts any string) whose uri contains a double quote does not
round-trip: decoding its encoding fails instead of returning the value. -/
theorem claim_C2_cex :
    ExtXIFrameStreamInf.from_str badIFrame.display ≠ .ok badIFrame := by
  decide

/-- Claim C2 (amended): decode is a left inverse of encode for every
`ExtXMap`, and for every `ExtXIFrameStreamInf` whose string-valued fields
(uri, codecs, video) contain no double-quote character. -/
theorem claim_C2_roundtrip :
    (∀ m : ExtXMap, ExtXMap.from_str m.display = .ok m) ∧
    (∀ t : ExtXIFrameStreamInf, ('"' : Char) ∉ t.uri →
      (∀ s ∈ t.codecs, ('"' : Char) ∉ s) → (∀ s ∈ t.video, ('"' : Char) ∉ s) →
      ExtXIFrameStreamInf.from_str t.display = .ok t) :=
  ⟨extXMap_roundtrip, iframe_roundtrip⟩

/-- A concrete `ExtXMap` with a byte range. -/
def mapFull : ExtXMap := ExtXMap.with_range ⟨("init.mp4").toList, by decide⟩ ⟨9, some 2⟩

/-- A concrete `ExtXIFrameStreamInf` with every optional field present. -/
def iframeFull : ExtXIFrameStreamInf :=
  ⟨("video.m3u8").toList, 1000, some 900, some (("avc1.4d401f").toList),
    some ⟨1920, 1080⟩, some .type0, some (("vid").toList)⟩

/-- Claim C2 witness: both tag kinds round-trip on concrete fully
populated values. -/
theorem claim_C2_witness :
    ExtXMap.from_str mapFull.display = .ok mapFull ∧
    ExtXIFrameStreamInf.from_str iframeFull.display = .ok iframeFull :=
  ⟨claim_C2_roundtrip.1 mapFull,
   claim_C2_roundtrip.2 iframeFull (by decide) (by decide) (by decide)⟩

/-- Claim C4: an unrecognized attribute name is ignored — decoding with
`FUTURE-FIELD=1` succeeds and equals decoding without it, for both
`EXT-X-MAP` and `EXT-X-I-FRAME-STREAM-INF`. -/
theorem claim_C4_unknown_attr :
    ExtXMap.from_str (("#EXT-X-MAP:URI=\"a\",FUTURE-FIELD=1").toList) =
      ExtXMap.from_str (("#EXT-X-MAP:URI=\"a\"").toList) ∧
    ExtXMap.from_str (("#EXT-X-MAP:URI=\"a\",FUTURE-FIELD=1").toList) =
      .ok (ExtXMap.new ⟨("a").toList, by decide⟩) ∧
    ExtXIFrameStreamInf.from_str
        (("#EXT-X-I-FRAME-STREAM-INF:URI=\"a\",BANDWIDTH=1,FUTURE-FIELD=1").toList) =
      ExtXIFrameStreamInf.from_str
        (("#EXT-X-I-FRAME-STREAM-INF:URI=\"a\",BANDWIDTH=1").toList) ∧
    ExtXIFrameStreamInf.from_str
        (("#EXT-X-I-FRAME-STREAM-INF:URI=\"a\",BANDWIDTH=1,FUTURE-FIELD=1").toList) =
      .ok (ExtXIFrameStreamInf.new (("a").toList) 1) := by
  refine ⟨by decide, by decide, by decide, by decide⟩

/-- Claim C5 counterexample: an `EXT-X-MAP` line lacking `URI` fails, but
with the generic `InvalidInput` error, which is not a `MissingAttribute`
error naming `URI`. -/
theorem claim_C5_cex :
    ExtXMap.from_str (("#EXT-X-MAP:BYTERANGE=\"9@2\"").toList) =
        .error .invalidInput ∧
      HlsError.invalidInput ≠ HlsError.missingValue (("URI").toList) := by
  refine ⟨by decide, by decide⟩

/-- Claim C5 (amended): a missing required attribute is always an error,
never a default value: `EXT-X-I-FRAME-STREAM-INF` without `URI` or without
`BANDWIDTH` fails with `missingValue` naming the absent attribute, while
`EXT-X-MAP` without `URI` fails with the generic (unnamed) `InvalidInput`
of its `trackable`-era error handling. -/
theorem claim_C5_missing_required :
    ExtXIFrameStreamInf.from_str (("#EXT-X-I-FRAME-STREAM-INF:BANDWIDTH=1").toList) =
        .error (.missingValue (("URI").toList)) ∧
    ExtXIFrameStreamInf.from_str (("#EXT-X-I-FRAME-STREAM-INF:URI=\"a\"").toList) =
        .error (.missingValue (("BANDWIDTH").toList)) ∧
    ExtXMap.from_str (("#EXT-X-MAP:BYTERANGE=\"9@2\"").toList) =
        .error .invalidInput := by
  refine ⟨by decide, by decide, by decide⟩

/-- Claim C6: a segment's required version is the maximum over the
required versions of all its contained tags — every key, and the map,
byte-range, date-range, discontinuity (when flagged), program-date-time
and duration contributions, where an absent optional field contributes the
baseline `V1`. -/
theorem claim_C6_required_version_max :
    ∀ s : MediaSegment,
      s.required_version =
        ((s.keys.map ExtXKey.required_version) ++
          [optRV ExtXMap.requires_version s.map,
           optRV ExtXByteRange.required_version s.byte_range,
           optRV ExtXDateRange.required_version s.date_range,
           (if s.has_discontinuity then ExtXDiscontinuity.required_version ⟨⟩
            else ProtocolVersion.V1),
           optRV ExtXProgramDateTime.required_version s.program_date_time,
           ExtInf.required_version s.inf]).foldl pvMax .V1 := by
  intro s
  rw [List.foldl_append]
  simp only [List.foldl_cons, List.foldl_nil]
  rw [← listRV_eq_foldl]
  unfold MediaSegment.required_version
  cases hflag : s.has_discontinuity <;>
    · simp [hflag, optRV]
      ac_rfl

/-! ### Last-occurrence semantics of the i-frame attribute fold -/

/-- The raw value of the last occurrence of `key` in a pair list. -/
def lastOf (key : Str) (kvs : List (Str × Str)) : Option Str :=
  ((kvs.filter (fun kv => kv.1 = key)).map Prod.snd).getLast?

/-- The successful result of a decoder, when any. -/
def okVal {α : Type} : Except HlsError α → Option α
  | .ok a => some a
  | .error _ => none

/-- Whether a decoder succeeded. -/
def isOkE {ε α : Type} : Except ε α → Bool
  | .ok _ => true
  | .error _ => false

theorem iframeStep_eq (st : IFrameAcc) (k v : Str) :
    iframeStep st ((k, v)) =
      if k = ("URI").toList then .ok { st with uri := some (unquote v) }
      else if k = ("BANDWIDTH").toList then
        parseU64 v >>= fun n => .ok { st with bandwidth := some n }
      else if k = ("AVERAGE-BANDWIDTH").toList then
        parseU64 v >>= fun n => .ok { st with average_bandwidth := some n }
      else if k = ("CODECS").toList then .ok { st with codecs := some (unquote v) }
      else if k = ("RESOLUTION").toList then
        DecimalResolution.parse v >>= fun r => .ok { st with resolution := some r }
      else if k = ("HDCP-LEVEL").toList then
        HdcpLevel.parse v >>= fun l => .ok { st with hdcp_level := some l }
      else if k = ("VIDEO").toList then .ok { st with video := some (unquote v) }
      else .ok st := rfl

theorem getLast?_cons_getD {α : Type} (v : α) (l : List α) :
    (v :: l).getLast? = some (l.getLast?.getD v) := by
  induction l generalizing v with
  | nil => rfl
  | cons x xs ih =>
    rw [List.getLast?_cons_cons, ih x]
    rfl

theorem lastOf_cons_self (key v : Str) (kvs : List (Str × Str)) :
    lastOf key ((key, v) :: kvs) = some ((lastOf key kvs).getD v) := by
  unfold lastOf
  rw [List.filter_cons_of_pos (by simp), List.map_cons]
  exact getLast?_cons_getD v _

theorem lastOf_cons_ne {k key : Str} (h : ¬k = key) (v : Str)
    (kvs : List (Str × Str)) :
    lastOf key ((k, v) :: kvs) = lastOf key kvs := by
  unfold lastOf
  rw [List.filter_cons_of_neg (by simp [h])]

/-- The attribute fold of `ExtXIFrameStreamInf::from_str`, characterized on
an arbitrary pair list: it never fails as long as every recognized
attribute occurrence carries a decodable value (duplicates included), and
each slot of the final state holds the decoded value of the **last**
occurrence of its attribute name, falling back to the incoming state when
the name never occurs. -/
theorem runAttrs_iframe_lastwins :
    ∀ (kvs : List (Str × Str)) (st : IFrameAcc),
      (∀ kv ∈ kvs, kv.1 = ("BANDWIDTH").toList → isOkE (parseU64 kv.2) = true) →
      (∀ kv ∈ kvs, kv.1 = ("AVERAGE-BANDWIDTH").toList → isOkE (parseU64 kv.2) = true) →
      (∀ kv ∈ kvs, kv.1 = ("RESOLUTION").toList →
        isOkE (DecimalResolution.parse kv.2) = true) →
      (∀ kv ∈ kvs, kv.1 = ("HDCP-LEVEL").toList → isOkE (HdcpLevel.parse kv.2) = true) →
      runAttrs iframeStep kvs st =
        .ok { uri := match lastOf (("URI").toList) kvs with
                     | some v => some (unquote v)
                     | none => st.uri
              bandwidth := match lastOf (("BANDWIDTH").toList) kvs with
                     | some v => okVal (parseU64 v)
                     | none => st.bandwidth
              average_bandwidth := match lastOf (("AVERAGE-BANDWIDTH").toList) kvs with
                     | some v => okVal (parseU64 v)
                     | none => st.average_bandwidth
              codecs := match lastOf (("CODECS").toList) kvs with
                     | some v => some (unquote v)
                     | none => st.codecs
              resolution := match lastOf (("RESOLUTION").toList) kvs with
                     | some v => okVal (DecimalResolution.parse v)
                     | none => st.resolution
              hdcp_level := match lastOf (("HDCP-LEVEL").toList) kvs with
                     | some v => okVal (HdcpLevel.parse v)
                     | none => st.hdcp_level
              video := match lastOf (("VIDEO").toList) kvs with
                     | some v => some (unquote v)
                     | none => st.video } := by
  intro kvs
  induction kvs with
  | nil => intro st _ _ _ _; rfl
  | cons kv rest ih =>
    intro st hbw hab hrs hhd
    obtain ⟨k, v⟩ := kv
    have hbw' := fun kv hkv => hbw kv (List.mem_cons_of_mem _ hkv)
    have hab' := fun kv hkv => hab kv (List.mem_cons_of_mem _ hkv)
    have hrs' := fun kv hkv => hrs kv (List.mem_cons_of_mem _ hkv)
    have hhd' := fun kv hkv => hhd kv (List.mem_cons_of_mem _ hkv)
    by_cases hk1 : k = ("URI").toList
    · subst hk1
      rw [runAttrs_cons, iframeStep_uri, except_bind_ok, ih _ hbw' hab' hrs' hhd',
        lastOf_cons_self,
        lastOf_cons_ne (by decide : ¬("URI").toList = ("BANDWIDTH").toList),
        lastOf_cons_ne (by decide : ¬("URI").toList = ("AVERAGE-BANDWIDTH").toList),
        lastOf_cons_ne (by decide : ¬("URI").toList = ("CODECS").toList),
        lastOf_cons_ne (by decide : ¬("URI").toList = ("RESOLUTION").toList),
        lastOf_cons_ne (by decide : ¬("URI").toList = ("HDCP-LEVEL").toList),
        lastOf_cons_ne (by decide : ¬("URI").toList = ("VIDEO").toList)]
      cases lastOf (("URI").toList) rest <;> rfl
    by_cases hk2 : k = ("BANDWIDTH").toList
    · subst hk2
      have hv := hbw _ (List.mem_cons_self _ _) rfl
      cases hpv : parseU64 v with
      | error e => rw [hpv] at hv; simp [isOkE] at hv
      | ok n =>
        rw [runAttrs_cons, iframeStep_bandwidth, hpv, except_bind_ok, except_bind_ok,
          ih _ hbw' hab' hrs' hhd',
          lastOf_cons_self,
          lastOf_cons_ne (by decide : ¬("BANDWIDTH").toList = ("URI").toList),
          lastOf_cons_ne (by decide : ¬("BANDWIDTH").toList = ("AVERAGE-BANDWIDTH").toList),
          lastOf_cons_ne (by decide : ¬("BANDWIDTH").toList = ("CODECS").toList),
          lastOf_cons_ne (by decide : ¬("BANDWIDTH").toList = ("RESOLUTION").toList),
          lastOf_cons_ne (by decide : ¬("BANDWIDTH").toList = ("HDCP-LEVEL").toList),
          lastOf_cons_ne (by decide : ¬("BANDWIDTH").toList = ("VIDEO").toList)]
        cases lastOf (("BANDWIDTH").toList) rest with
        | some w => rfl
        | none => simp only [Option.getD_none, hpv]; rfl
    by_cases hk3 : k = ("AVERAGE-BANDWIDTH").toList
    · subst hk3
      have hv := hab _ (List.mem_cons_self _ _) rfl
      cases hpv : parseU64 v with
      | error e => rw [hpv] at hv; simp [isOkE] at hv
      | ok n =>
        rw [runAttrs_cons, iframeStep_ab, hpv, except_bind_ok, except_bind_ok,
          ih _ hbw' hab' hrs' hhd',
          lastOf_cons_self,
          lastOf_cons_ne (by decide : ¬("AVERAGE-BANDWIDTH").toList = ("URI").toList),
          lastOf_cons_ne (by decide : ¬("AVERAGE-BANDWIDTH").toList = ("BANDWIDTH").toList),
          lastOf_cons_ne (by decide : ¬("AVERAGE-BANDWIDTH").toList = ("CODECS").toList),
          lastOf_cons_ne (by decide : ¬("AVERAGE-BANDWIDTH").toList = ("RESOLUTION").toList),
          lastOf_cons_ne (by decide : ¬("AVERAGE-BANDWIDTH").toList = ("HDCP-LEVEL").toList),
          lastOf_cons_ne (by decide : ¬("AVERAGE-BANDWIDTH").toList = ("VIDEO").toList)]
        cases lastOf (("AVERAGE-BANDWIDTH").toList) rest with
        | some w => rfl
        | none => simp only [Option.getD_none, hpv]; rfl
    by_cases hk4 : k = ("CODECS").toList
    · subst hk4
      rw [runAttrs_cons, iframeStep_codecs, except_bind_ok, ih _ hbw' hab' hrs' hhd',
        lastOf_cons_self,
        lastOf_cons_ne (by decide : ¬("CODECS").toList = ("URI").toList),
        lastOf_cons_ne (by decide : ¬("CODECS").toList = ("BANDWIDTH").toList),
        lastOf_cons_ne (by decide : ¬("CODECS").toList = ("AVERAGE-BANDWIDTH").toList),
        lastOf_cons_ne (by decide : ¬("CODECS").toList = ("RESOLUTION").toList),
        lastOf_cons_ne (by decide : ¬("CODECS").toList = ("HDCP-LEVEL").toList),
        lastOf_cons_ne (by decide : ¬("CODECS").toList = ("VIDEO").toList)]
      cases lastOf (("CODECS").toList) rest <;> rfl
    by_cases hk5 : k = ("RESOLUTION").toList
    · subst hk5
      have hv := hrs _ (List.mem_cons_self _ _) rfl
      cases hpv : DecimalResolution.parse v with
      | error e => rw [hpv] at hv; simp [isOkE] at hv
      | ok r =>
        rw [runAttrs_cons, iframeStep_resolution, hpv, except_bind_ok, except_bind_ok,
          ih _ hbw' hab' hrs' hhd',
          lastOf_cons_self,
          lastOf_cons_ne (by decide : ¬("RESOLUTION").toList = ("URI").toList),
          lastOf_cons_ne (by decide : ¬("RESOLUTION").toList = ("BANDWIDTH").toList),
          lastOf_cons_ne (by decide : ¬("RESOLUTION").toList = ("AVERAGE-BANDWIDTH").toList),
          lastOf_cons_ne (by decide : ¬("RESOLUTION").toList = ("CODECS").toList),
          lastOf_cons_ne (by decide : ¬("RESOLUTION").toList = ("HDCP-LEVEL").toList),
          lastOf_cons_ne (by decide : ¬("RESOLUTION").toList = ("VIDEO").toList)]
        cases lastOf (("RESOLUTION").toList) rest with
        | some w => rfl
        | none => simp only [Option.getD_none, hpv]; rfl
    by_cases hk6 : k = ("HDCP-LEVEL").toList
    · subst hk6
      have hv := hhd _ (List.mem_cons_self _ _) rfl
      cases hpv : HdcpLevel.parse v with
      | error e => rw [hpv] at hv; simp [isOkE] at hv
      | ok l =>
        rw [runAttrs_cons, iframeStep_hdcp, hpv, except_bind_ok, except_bind_ok,
          ih _ hbw' hab' hrs' hhd',
          lastOf_cons_self,
          lastOf_cons_ne (by decide : ¬("HDCP-LEVEL").toList = ("URI").toList),
          lastOf_cons_ne (by decide : ¬("HDCP-LEVEL").toList = ("BANDWIDTH").toList),
          lastOf_cons_ne (by decide : ¬("HDCP-LEVEL").toList = ("AVERAGE-BANDWIDTH").toList),
          lastOf_cons_ne (by decide : ¬("HDCP-LEVEL").toList = ("CODECS").toList),
          lastOf_cons_ne (by decide : ¬("HDCP-LEVEL").toList = ("RESOLUTION").toList),
          lastOf_cons_ne (by decide : ¬("HDCP-LEVEL").toList = ("VIDEO").toList)]
        cases lastOf (("HDCP-LEVEL").toList) rest with
        | some w => rfl
        | none => simp only [Option.getD_none, hpv]; rfl
    by_cases hk7 : k = ("VIDEO").toList
    · subst hk7
      rw [runAttrs_cons, iframeStep_video, except_bind_ok, ih _ hbw' hab' hrs' hhd',
        lastOf_cons_self,
        lastOf_cons_ne (by decide : ¬("VIDEO").toList = ("URI").toList),
        lastOf_cons_ne (by decide : ¬("VIDEO").toList = ("BANDWIDTH").toList),
        lastOf_cons_ne (by decide : ¬("VIDEO").toList = ("AVERAGE-BANDWIDTH").toList),
        lastOf_cons_ne (by decide : ¬("VIDEO").toList = ("CODECS").toList),
        lastOf_cons_ne (by decide : ¬("VIDEO").toList = ("RESOLUTION").toList),
        lastOf_cons_ne (by decide : ¬("VIDEO").toList = ("HDCP-LEVEL").toList)]
      cases lastOf (("VIDEO").toList) rest <;> rfl
    · have hstep : iframeStep st ((k, v)) = .ok st := by
        rw [iframeStep_eq, if_neg hk1, if_neg hk2, if_neg hk3, if_neg hk4,
          if_neg hk5, if_neg hk6, if_neg hk7]
      rw [runAttrs_cons, hstep, except_bind_ok, ih _ hbw' hab' hrs' hhd',
        lastOf_cons_ne hk1, lastOf_cons_ne hk2, lastOf_cons_ne hk3,
        lastOf_cons_ne hk4, lastOf_cons_ne hk5, lastOf_cons_ne hk6,
        lastOf_cons_ne hk7]

/-- Claim C10: for every `EXT-X-I-FRAME-STREAM-INF` attribute list — in
particular any in which a recognized attribute name occurs more than once
— decoding succeeds whenever every occurrence of a recognized attribute
carries a valid value and `URI` and `BANDWIDTH` occur somewhere, and every
resulting field holds the decoded value of the **last** occurrence of its
attribute name (later pairs overwrite earlier ones); duplicates are never
an error. -/
theorem claim_C10_dup_last (kvs : List (Str × Str)) (u b : Str) (n : Nat)
    (hok : ∀ kv ∈ kvs, chunkOK (encPair kv) false = true)
    (hkeys : ∀ kv ∈ kvs, ('=' : Char) ∉ kv.1)
    (hbw : ∀ kv ∈ kvs, kv.1 = ("BANDWIDTH").toList → isOkE (parseU64 kv.2) = true)
    (hab : ∀ kv ∈ kvs, kv.1 = ("AVERAGE-BANDWIDTH").toList →
      isOkE (parseU64 kv.2) = true)
    (hrs : ∀ kv ∈ kvs, kv.1 = ("RESOLUTION").toList →
      isOkE (DecimalResolution.parse kv.2) = true)
    (hhd : ∀ kv ∈ kvs, kv.1 = ("HDCP-LEVEL").toList →
      isOkE (HdcpLevel.parse kv.2) = true)
    (hu : lastOf (("URI").toList) kvs = some u)
    (hb : lastOf (("BANDWIDTH").toList) kvs = some b)
    (hn : parseU64 b = .ok n) :
    ExtXIFrameStreamInf.from_str
        (ExtXIFrameStreamInf.prefixStr ++ glueAll (kvs.map encPair)) =
      .ok { uri := unquote u
            bandwidth := n
            average_bandwidth := (lastOf (("AVERAGE-BANDWIDTH").toList) kvs).bind
              (fun v => okVal (parseU64 v))
            codecs := (lastOf (("CODECS").toList) kvs).map unquote
            resolution := (lastOf (("RESOLUTION").toList) kvs).bind
              (fun v => okVal (DecimalResolution.parse v))
            hdcp_level := (lastOf (("HDCP-LEVEL").toList) kvs).bind
              (fun v => okVal (HdcpLevel.parse v))
            video := (lastOf (("VIDEO").toList) kvs).map unquote } := by
  unfold ExtXIFrameStreamInf.from_str
  rw [if_pos (by rw [List.isPrefixOf_iff_prefix]; exact List.prefix_append _ _)]
  rw [List.drop_left]
  rw [AttributePairs.parse_glue hok hkeys, except_bind_ok]
  rw [runAttrs_iframe_lastwins kvs {} hbw hab hrs hhd, except_bind_ok]
  simp only [hu, hb, hn]
  cases lastOf (("AVERAGE-BANDWIDTH").toList) kvs <;>
    cases lastOf (("CODECS").toList) kvs <;>
    cases lastOf (("RESOLUTION").toList) kvs <;>
    cases lastOf (("HDCP-LEVEL").toList) kvs <;>
    cases lastOf (("VIDEO").toList) kvs <;> rfl

/-- A concrete attribute list with duplicate `URI`, `BANDWIDTH` and
`RESOLUTION` names. -/
def dupAttrList : List (Str × Str) :=
  [((("URI").toList, ("\"a\"").toList)),
   ((("RESOLUTION").toList, ("10x20").toList)),
   ((("URI").toList, ("\"b\"").toList)),
   ((("BANDWIDTH").toList, ("1").toList)),
   ((("RESOLUTION").toList, ("30x40").toList)),
   ((("BANDWIDTH").toList, ("2").toList))]

/-- Claim C10 witness: on a concrete line with duplicated `URI`,
`BANDWIDTH` and `RESOLUTION` attributes, decoding succeeds and every
duplicated field holds its last occurrence. -/
theorem claim_C10_witness :
    ExtXIFrameStreamInf.from_str
        (ExtXIFrameStreamInf.prefixStr ++ glueAll (dupAttrList.map encPair)) =
      .ok { uri := ("b").toList, bandwidth := 2, average_bandwidth := none,
            codecs := none, resolution := some ⟨30, 40⟩, hdcp_level := none,
            video := none } := by
  have h := claim_C10_dup_last dupAttrList (("\"b\"").toList) (("2").toList) 2
    (by decide) (by decide) (by decide) (by decide) (by decide) (by decide)
    (by decide) (by decide) (by decide)
  exact h.trans (by decide)

end Hls
